import Mathlib

/-!
Verification of the application bootstrapper `create_app` from
`backend/app/__init__.py` (CS4091/Team-J).

The Python function builds a Flask application: it instantiates the app,
attaches a fresh empty per-user graph store (`app.user_graphs = {}`),
loads the default configuration (`SECRET_KEY='dev'`), optionally merges a
test-configuration overlay (guarded by Python truthiness of the overlay),
enables CORS, registers the blueprint `api_bp`, and returns the app.

Shallow embedding: configuration mappings and the user-graph store are
insertion-ordered association lists (mirroring Python dicts); the
allocation of a fresh dict per call is made explicit by threading a heap
of stores, so that distinctness of the stores of two separately created
instances is expressible.
-/

namespace TeamJ

/-- Configuration (and graph) values as they appear in a Python mapping:
a string, an integer, a boolean, or None.  The bootstrapper never inspects
these, so a small universe suffices; `pynone` and `int` in particular let
us feed "malformed" settings through the overlay. -/
inductive Val where
  | str : String → Val
  | int : Int → Val
  | bool : Bool → Val
  | pynone : Val
deriving DecidableEq, Repr

/-- An insertion-ordered association list standing for a Python dict. -/
abbrev Dict := List (String × Val)

/-- Dict lookup: the value at the first (hence, for a genuine dict, the
only) occurrence of the key. -/
def lookupVal : Dict → String → Option Val
  | [], _ => none
  | p :: rest, k => if p.1 = k then some p.2 else lookupVal rest k

/-- Dict assignment `d[k] = v`: replace the value at the first occurrence
of `k` in place, or append a new entry (Python dicts keep insertion
order, and assignment to an existing key keeps its position). -/
def setKey : Dict → String → Val → Dict
  | [], k, v => [(k, v)]
  | p :: rest, k, v => if p.1 = k then (k, v) :: rest else p :: setKey rest k v

/-- Flask's `Config.from_mapping`, as the bootstrapper uses it: each entry
of `m` is assigned into the configuration in order, so entries of `m`
replace same-named existing entries and later occurrences win. -/
def from_mapping (cfg : Dict) (m : Dict) : Dict :=
  m.foldl (fun c p => setKey c p.1 p.2) cfg

/-- The per-user graph store: a dict from user identifier to graph value. -/
abbrev Store := Dict

/-- The heap of allocated stores; a store reference is an index into it.
This makes Python's allocation of a fresh `{}` per call explicit. -/
structure Heap where
  stores : List Store
deriving DecidableEq, Repr

/-- Allocate a fresh store holding `d`; returns its reference. -/
def Heap.alloc (h : Heap) (d : Store) : Nat × Heap :=
  (h.stores.length, ⟨h.stores ++ [d]⟩)

/-- Dereference a store (out-of-range references read as empty). -/
def Heap.get (h : Heap) (r : Nat) : Store :=
  (h.stores.get? r).getD []

/-- Overwrite the store at reference `r` (models mutating the dict). -/
def Heap.set (h : Heap) (r : Nat) (d : Store) : Heap :=
  ⟨h.stores.set r d⟩

/-- The application instance: its configuration dict, the reference to its
user-graph store, whether the CORS middleware is installed, and the names
of the registered blueprints. -/
structure App where
  user_graphs_ref : Nat
  config : Dict
  cors_enabled : Bool
  blueprints : List String
deriving DecidableEq, Repr

/-- A bare `Flask(__name__)` instance, before the bootstrapper touches it:
no configuration of interest, no store attached yet, no CORS, no
blueprints. -/
def blankApp : App :=
  { user_graphs_ref := 0, config := [], cors_enabled := false, blueprints := [] }

/-- The default configuration loaded at line 14:
`SECRET_KEY='dev'`. -/
def defaultConfig : Dict := [("SECRET_KEY", Val.str "dev")]

/-- Python truthiness of the optional overlay: `None` and an empty dict
are falsy, a non-empty dict is truthy (`if test_config:` at line 19). -/
def truthy : Option Dict → Bool
  | none => false
  | some m => !m.isEmpty

/-- The bootstrapper `create_app(test_config=None)`, translated line by
line from `backend/app/__init__.py`. -/
def create_app (test_config : Option Dict) (h : Heap) : App × Heap :=
  -- app = Flask(__name__)
  let app := blankApp
  -- app.user_graphs = \x7b\x7d  (allocate a fresh empty dict)
  let rh := h.alloc []
  let h := rh.2
  let app := { app with user_graphs_ref := rh.1 }
  -- app.config.from_mapping(SECRET_KEY='dev')
  let app := { app with config := from_mapping app.config defaultConfig }
  -- if test_config: app.config.from_mapping(test_config)
  let app :=
    if truthy test_config then
      { app with config := from_mapping app.config (test_config.getD []) }
    else app
  -- CORS(app)
  let app := { app with cors_enabled := true }
  -- app.register_blueprint(api_bp)
  let app := { app with blueprints := app.blueprints ++ ["api_bp"] }
  (app, h)

/-- Read a setting off an instance, like `app.config[k]` would. -/
def getConfig (a : App) (k : String) : Option Val :=
  lookupVal a.config k

/-! Basic dict lemmas. -/

theorem lookupVal_setKey_self (d : Dict) (k : String) (v : Val) :
    lookupVal (setKey d k v) k = some v := by
  induction d with
  | nil => simp [setKey, lookupVal]
  | cons p rest ih =>
    by_cases hpk : p.1 = k
    · simp [setKey, hpk, lookupVal]
    · simp [setKey, hpk, lookupVal, ih]

theorem lookupVal_setKey_other (d : Dict) (k k' : String) (v : Val)
    (hkk : k' ≠ k) : lookupVal (setKey d k v) k' = lookupVal d k' := by
  induction d with
  | nil => simp [setKey, lookupVal, Ne.symm hkk]
  | cons p rest ih =>
    by_cases hpk : p.1 = k
    · subst hpk
      simp [setKey, lookupVal, Ne.symm hkk]
    · by_cases hpk' : p.1 = k'
      · simp [setKey, hpk, lookupVal, hpk', hkk]
      · simp [setKey, hpk, lookupVal, hpk', ih]

/-- Lookup of the last occurrence of a key, matching which value survives
when a dict is folded entry-by-entry into another via assignment. -/
def lookupLast : Dict → String → Option Val
  | [], _ => none
  | p :: rest, k =>
    match lookupLast rest k with
    | some v => some v
    | none => if p.1 = k then some p.2 else none

theorem lookupVal_from_mapping (m : Dict) (cfg : Dict) (k : String) :
    lookupVal (from_mapping cfg m) k =
      match lookupLast m k with
      | some v => some v
      | none => lookupVal cfg k := by
  induction m generalizing cfg with
  | nil => simp [from_mapping, lookupLast]
  | cons p rest ih =>
    show lookupVal (from_mapping (setKey cfg p.1 p.2) rest) k = _
    rw [ih]
    cases hrest : lookupLast rest k with
    | some v => simp [lookupLast, hrest]
    | none =>
      by_cases hpk : p.1 = k
      · subst hpk
        simp [lookupLast, hrest, lookupVal_setKey_self]
      · simp [lookupLast, hrest, hpk,
          lookupVal_setKey_other cfg p.1 k p.2 (fun h => hpk h.symm)]

theorem lookupVal_eq_none_of_not_mem (m : Dict) (k : String)
    (hk : k ∉ m.map Prod.fst) : lookupVal m k = none := by
  induction m with
  | nil => rfl
  | cons p rest ih =>
    simp only [List.map_cons, List.mem_cons] at hk
    push_neg at hk
    simp [lookupVal, Ne.symm hk.1, ih hk.2]

theorem lookupLast_eq_none_of_not_mem (m : Dict) (k : String)
    (hk : k ∉ m.map Prod.fst) : lookupLast m k = none := by
  induction m with
  | nil => rfl
  | cons p rest ih =>
    simp only [List.map_cons, List.mem_cons] at hk
    push_neg at hk
    simp [lookupLast, ih hk.2, Ne.symm hk.1]

theorem lookupLast_eq_lookupVal_of_nodup (m : Dict) (k : String)
    (hnd : (m.map Prod.fst).Nodup) : lookupLast m k = lookupVal m k := by
  induction m with
  | nil => rfl
  | cons p rest ih =>
    simp only [List.map_cons, List.nodup_cons] at hnd
    by_cases hpk : p.1 = k
    · subst hpk
      have h1 : lookupLast rest p.1 = none :=
        lookupLast_eq_none_of_not_mem rest p.1 hnd.1
      simp [lookupLast, h1, lookupVal]
    · simp only [lookupLast, lookupVal, ih hnd.2]
      cases hrest : lookupVal rest k with
      | some v => simp [hpk]
      | none => simp [hpk]

/-! List/heap lemmas used for the store claims. -/

theorem get?_append_length (l : List Store) (d : Store) (l₂ : List Store) :
    (l ++ d :: l₂).get? l.length = some d := by
  induction l with
  | nil => rfl
  | cons a rest ih => exact ih

theorem get?_append_lt (l l₂ : List Store) (r : Nat) (hr : r < l.length) :
    (l ++ l₂).get? r = l.get? r := by
  induction l generalizing r with
  | nil => exact absurd hr (Nat.not_lt_zero r)
  | cons a rest ih =>
    cases r with
    | zero => rfl
    | succ r' => exact ih r' (Nat.lt_of_succ_lt_succ hr)

theorem get?_set_ne (l : List Store) (i j : Nat) (d : Store) (hij : i ≠ j) :
    (l.set i d).get? j = l.get? j := by
  induction l generalizing i j with
  | nil => rfl
  | cons a rest ih =>
    cases i with
    | zero =>
      cases j with
      | zero => exact absurd rfl hij
      | succ j' => rfl
    | succ i' =>
      cases j with
      | zero => rfl
      | succ j' => exact ih i' j' (fun he => hij (by rw [he]))

/-! Helper lemmas describing the result of `create_app` componentwise. -/

theorem create_app_heap (tc : Option Dict) (h : Heap) :
    (create_app tc h).2 = ⟨h.stores ++ [[]]⟩ := rfl

theorem create_app_ref (tc : Option Dict) (h : Heap) :
    (create_app tc h).1.user_graphs_ref = h.stores.length := by
  cases htr : truthy tc <;> simp [create_app, blankApp, Heap.alloc, htr]

theorem create_app_config (tc : Option Dict) (h : Heap) :
    (create_app tc h).1.config =
      if truthy tc then from_mapping (from_mapping [] defaultConfig) (tc.getD [])
      else from_mapping [] defaultConfig := by
  cases htr : truthy tc <;> simp [create_app, blankApp, htr]

theorem create_app_cors (tc : Option Dict) (h : Heap) :
    (create_app tc h).1.cors_enabled = true := by
  cases htr : truthy tc <;> simp [create_app, blankApp, htr]

theorem create_app_blueprints (tc : Option Dict) (h : Heap) :
    (create_app tc h).1.blueprints = ["api_bp"] := by
  cases htr : truthy tc <;> simp [create_app, blankApp, htr]

theorem create_app_store_empty (tc : Option Dict) (h : Heap) :
    (create_app tc h).2.get (create_app tc h).1.user_graphs_ref = [] := by
  rw [create_app_heap, create_app_ref]
  show Heap.get ⟨h.stores ++ [[]]⟩ h.stores.length = []
  rw [Heap.get, get?_append_length]
  rfl

/-! A step-by-step presentation of the construction, following the flow
the specification describes, used to state that `create_app` is exactly
this linear sequence with a single optional-overlay decision. -/

/-- One construction step of the bootstrapper. -/
inductive Step where
  | instantiate
  | attachStore
  | loadDefaults
  | mergeOverlay (m : Dict)
  | installCORS
  | registerRoutes (b : String)
deriving DecidableEq, Repr

/-- Effect of a single construction step on the app under construction
and the heap of stores. -/
def runStep : App × Heap → Step → App × Heap
  | (_, h), Step.instantiate => (blankApp, h)
  | (a, h), Step.attachStore =>
      let rh := h.alloc []
      ({ a with user_graphs_ref := rh.1 }, rh.2)
  | (a, h), Step.loadDefaults =>
      ({ a with config := from_mapping a.config defaultConfig }, h)
  | (a, h), Step.mergeOverlay m =>
      ({ a with config := from_mapping a.config m }, h)
  | (a, h), Step.installCORS => ({ a with cors_enabled := true }, h)
  | (a, h), Step.registerRoutes b =>
      ({ a with blueprints := a.blueprints ++ [b] }, h)

/-- Run a list of construction steps in order. -/
def runSteps (s : App × Heap) (steps : List Step) : App × Heap :=
  steps.foldl runStep s

/-- The construction sequence of the bootstrapper: instantiate, attach the
store, load defaults, merge the overlay only when it is truthy, install
CORS, register `api_bp`. -/
def constructionTrace (tc : Option Dict) : List Step :=
  [Step.instantiate, Step.attachStore, Step.loadDefaults]
    ++ (if truthy tc then [Step.mergeOverlay (tc.getD [])] else [])
    ++ [Step.installCORS, Step.registerRoutes "api_bp"]

/-- Modelled from the spec: the externally defined route collection
`api_bp` lives in `app/routes.py`, which is outside the given source;
at this layer a route collection is opaque and reachability of its
handlers on an instance means exactly that the collection is among the
instance's registered blueprints. -/
def handlersReachable (a : App) : Bool :=
  a.blueprints.contains "api_bp"

/-! Claim theorems. -/

/-- C1: for every call to `create_app` with no overlay configuration, the
`SECRET_KEY` of the returned instance's configuration is the default
placeholder value "dev". -/
theorem create_app_none_secret_key_dev (h : Heap) :
    getConfig (create_app none h).1 "SECRET_KEY" = some (Val.str "dev") := by
  rw [getConfig, create_app_config]
  rfl

/-- C2: for every overlay mapping that contains a `SECRET_KEY` entry, the
returned instance's `SECRET_KEY` equals the overlay's value: the overlay
entry replaces the default on key collision. -/
theorem create_app_overlay_secret_key_wins (m : Dict) (v : Val) (h : Heap)
    (hnd : (m.map Prod.fst).Nodup)
    (hv : lookupVal m "SECRET_KEY" = some v) :
    getConfig (create_app (some m) h).1 "SECRET_KEY" = some v := by
  have htr : truthy (some m) = true := by
    cases m with
    | nil => simp [lookupVal] at hv
    | cons p rest => rfl
  rw [getConfig, create_app_config, htr, if_pos rfl, Option.getD_some,
    lookupVal_from_mapping, lookupLast_eq_lookupVal_of_nodup m _ hnd, hv]

/-- C2 witness: a concrete overlay carrying `SECRET_KEY = "prod-secret"`
wins over the default. -/
theorem create_app_overlay_secret_key_wins_witness :
    getConfig (create_app (some [("SECRET_KEY", Val.str "prod-secret")]) ⟨[]⟩).1
      "SECRET_KEY" = some (Val.str "prod-secret") :=
  create_app_overlay_secret_key_wins [("SECRET_KEY", Val.str "prod-secret")]
    (Val.str "prod-secret") ⟨[]⟩ (by decide) (by decide)

/-- C3: for every overlay mapping that omits the `SECRET_KEY` key, the
returned instance's `SECRET_KEY` still equals the default "dev": defaults
whose keys are absent from the overlay survive the merge. -/
theorem create_app_overlay_omits_secret_key (m : Dict) (h : Heap)
    (hm : "SECRET_KEY" ∉ m.map Prod.fst) :
    getConfig (create_app (some m) h).1 "SECRET_KEY" = some (Val.str "dev") := by
  rw [getConfig, create_app_config]
  cases htr : truthy (some m) with
  | false => rfl
  | true =>
    rw [if_pos rfl, Option.getD_some, lookupVal_from_mapping,
      lookupLast_eq_none_of_not_mem m _ hm]
    rfl

/-- C3 witness: an overlay setting only `TESTING` leaves `SECRET_KEY` at
"dev". -/
theorem create_app_overlay_omits_secret_key_witness :
    getConfig (create_app (some [("TESTING", Val.bool true)]) ⟨[]⟩).1
      "SECRET_KEY" = some (Val.str "dev") :=
  create_app_overlay_omits_secret_key [("TESTING", Val.bool true)] ⟨[]⟩
    (by decide)

/-- C4: the user-graph store of a fresh instance is the empty mapping, and
two separate calls yield distinct stores: after two calls (with any
overlays, threaded through any starting heap) the two store references
differ, both stores are empty, and overwriting the store behind either
instance's reference leaves the store behind the other reference
untouched. -/
theorem create_app_distinct_empty_stores (tc1 tc2 : Option Dict) (h : Heap)
    (d : Store) :
    (create_app tc1 h).1.user_graphs_ref
        ≠ (create_app tc2 (create_app tc1 h).2).1.user_graphs_ref
    ∧ (create_app tc2 (create_app tc1 h).2).2.get
        (create_app tc1 h).1.user_graphs_ref = []
    ∧ (create_app tc2 (create_app tc1 h).2).2.get
        (create_app tc2 (create_app tc1 h).2).1.user_graphs_ref = []
    ∧ ((create_app tc2 (create_app tc1 h).2).2.set
        (create_app tc2 (create_app tc1 h).2).1.user_graphs_ref d).get
        (create_app tc1 h).1.user_graphs_ref = []
    ∧ ((create_app tc2 (create_app tc1 h).2).2.set
        (create_app tc1 h).1.user_graphs_ref d).get
        (create_app tc2 (create_app tc1 h).2).1.user_graphs_ref = [] := by
  have hr1 : (create_app tc1 h).1.user_graphs_ref = h.stores.length :=
    create_app_ref tc1 h
  have hh1 : (create_app tc1 h).2 = ⟨h.stores ++ [[]]⟩ := create_app_heap tc1 h
  have hr2 : (create_app tc2 (create_app tc1 h).2).1.user_graphs_ref
      = h.stores.length + 1 := by
    rw [create_app_ref, hh1]
    simp
  have hh2 : (create_app tc2 (create_app tc1 h).2).2
      = ⟨(h.stores ++ [[]]) ++ [[]]⟩ := by
    rw [create_app_heap, hh1]
  have hget1 : (⟨(h.stores ++ [[]]) ++ [[]]⟩ : Heap).get h.stores.length
      = [] := by
    show (((h.stores ++ [[]]) ++ [[]]).get? h.stores.length).getD [] = []
    rw [List.append_assoc]
    show ((h.stores ++ [] :: [[]]).get? h.stores.length).getD [] = []
    rw [get?_append_length]
    rfl
  have hget2 : (⟨(h.stores ++ [[]]) ++ [[]]⟩ : Heap).get
      (h.stores.length + 1) = [] := by
    show (((h.stores ++ [[]]) ++ [[]]).get? (h.stores.length + 1)).getD []
      = []
    have hlen : h.stores.length + 1 = (h.stores ++ [[]]).length := by simp
    rw [hlen, get?_append_length]
    rfl
  refine ⟨?_, ?_, ?_, ?_, ?_⟩
  · rw [hr1, hr2]
    omega
  · rw [hr1, hh2]
    exact hget1
  · rw [hr2, hh2]
    exact hget2
  · rw [hr1, hr2, hh2, Heap.set, Heap.get]
    rw [get?_set_ne _ _ _ _ (by omega)]
    have := hget1
    rw [Heap.get] at this
    exact this
  · rw [hr1, hr2, hh2, Heap.set, Heap.get]
    rw [get?_set_ne _ _ _ _ (by omega)]
    have := hget2
    rw [Heap.get] at this
    exact this

/-- C5: `create_app` is exactly the linear construction sequence
instantiate → attach store → load defaults → (merge overlay only when the
overlay is supplied and truthy) → install CORS → register `api_bp`, with
no other branching: running the construction trace from any starting
state reproduces `create_app`, and the trace has exactly one of the two
stated shapes, decided solely by the overlay. -/
theorem create_app_linear_construction (tc : Option Dict) (h : Heap)
    (a0 : App) :
    runSteps (a0, h) (constructionTrace tc) = create_app tc h
    ∧ (constructionTrace tc
        = [Step.instantiate, Step.attachStore, Step.loadDefaults,
           Step.installCORS, Step.registerRoutes "api_bp"]
      ∨ ∃ m, tc = some m ∧ truthy tc = true ∧ constructionTrace tc
        = [Step.instantiate, Step.attachStore, Step.loadDefaults,
           Step.mergeOverlay m, Step.installCORS,
           Step.registerRoutes "api_bp"]) := by
  cases htr : truthy tc with
  | false =>
    refine ⟨?_, Or.inl ?_⟩
    · simp [runSteps, constructionTrace, htr, create_app, runStep, blankApp]
    · simp [constructionTrace, htr]
  | true =>
    cases tc with
    | none => simp [truthy] at htr
    | some m =>
      refine ⟨?_, Or.inr ⟨m, rfl, rfl, ?_⟩⟩
      · simp [runSteps, constructionTrace, htr, create_app, runStep, blankApp]
      · simp [constructionTrace, htr]

/-- C6: the bootstrapper defines no error conditions: for every overlay
(malformed or not) and every heap, construction completes and returns an
instance, and every entry of a truthy overlay — whatever the shape of its
value — is installed into the configuration verbatim, with no validation
or rejection. -/
theorem create_app_total_no_validation (tc : Option Dict) (h : Heap) :
    (∃ a h', create_app tc h = (a, h'))
    ∧ (∀ m, tc = some m → truthy tc = true →
        ∀ k v, lookupLast m k = some v →
          getConfig (create_app tc h).1 k = some v) := by
  refine ⟨⟨(create_app tc h).1, (create_app tc h).2, rfl⟩, ?_⟩
  intro m hm htr k v hv
  subst hm
  rw [getConfig, create_app_config, htr, if_pos rfl, Option.getD_some,
    lookupVal_from_mapping, hv]

/-- C6 witness: an overlay assigning the integer 3 to `SECRET_KEY` (a
malformed setting) is accepted without validation and stored verbatim. -/
theorem create_app_total_no_validation_witness :
    getConfig (create_app (some [("SECRET_KEY", Val.int 3)]) ⟨[]⟩).1
      "SECRET_KEY" = some (Val.int 3) :=
  (create_app_total_no_validation (some [("SECRET_KEY", Val.int 3)]) ⟨[]⟩).2
    [("SECRET_KEY", Val.int 3)] rfl (by decide) "SECRET_KEY" (Val.int 3)
    (by decide)

/-- C7: every call to `create_app` registers the external route collection
`api_bp` on the returned instance — the registered-blueprint list is
exactly `[api_bp]` — so its handlers are reachable on the instance rather
than absent. -/
theorem create_app_registers_api_bp (tc : Option Dict) (h : Heap) :
    (create_app tc h).1.blueprints = ["api_bp"]
    ∧ handlersReachable (create_app tc h).1 = true := by
  have hb : (create_app tc h).1.blueprints = ["api_bp"] :=
    create_app_blueprints tc h
  exact ⟨hb, by rw [handlersReachable, hb]; rfl⟩

/-- C8: an empty overlay mapping is falsy, so `create_app` with an empty
overlay returns exactly the same instance and heap as `create_app` with
no overlay at all: the merge step is skipped for any falsy overlay. -/
theorem create_app_empty_overlay_eq_none (h : Heap) :
    create_app (some []) h = create_app none h := rfl

/-- C9: every construction step leaves the contents of every
already-allocated store untouched, and in particular the user-graph store
attached by `create_app` is still the empty mapping when `create_app`
returns, for every overlay. -/
theorem create_app_store_unchanged (tc : Option Dict) (h : Heap) :
    (∀ (a : App) (st : Step) (r : Nat), r < h.stores.length →
        ((runStep (a, h) st).2).get r = h.get r)
    ∧ (create_app tc h).2.get (create_app tc h).1.user_graphs_ref = [] := by
  refine ⟨?_, create_app_store_empty tc h⟩
  intro a st r hr
  cases st with
  | instantiate => rfl
  | attachStore =>
    show Heap.get ⟨h.stores ++ [[]]⟩ r = h.get r
    rw [Heap.get, Heap.get, get?_append_lt _ _ _ hr]
  | loadDefaults => rfl
  | mergeOverlay m => rfl
  | installCORS => rfl
  | registerRoutes b => rfl

/-- C9 witness: on a concrete heap holding one store, every construction
step preserves that store's contents, and the store of the created
instance is empty. -/
theorem create_app_store_unchanged_witness :
    ((runStep (blankApp, ⟨[[("u", Val.int 1)]]⟩) Step.attachStore).2).get 0
      = Heap.get ⟨[[("u", Val.int 1)]]⟩ 0 :=
  (create_app_store_unchanged none ⟨[[("u", Val.int 1)]]⟩).1 blankApp
    Step.attachStore 0 (by decide)

/-- C10: `create_app` is deterministic in its overlay argument: two calls
with equal overlays, from any two heaps, produce instances with equal
configuration, CORS flag and blueprints, and with equal (empty)
user-graph stores. -/
theorem create_app_deterministic (tc : Option Dict) (h1 h2 : Heap) :
    (create_app tc h1).1.config = (create_app tc h2).1.config
    ∧ (create_app tc h1).1.cors_enabled = (create_app tc h2).1.cors_enabled
    ∧ (create_app tc h1).1.blueprints = (create_app tc h2).1.blueprints
    ∧ (create_app tc h1).2.get (create_app tc h1).1.user_graphs_ref = []
    ∧ (create_app tc h2).2.get (create_app tc h2).1.user_graphs_ref = [] := by
  refine ⟨?_, ?_, ?_, create_app_store_empty tc h1,
    create_app_store_empty tc h2⟩
  · rw [create_app_config, create_app_config]
  · rw [create_app_cors, create_app_cors]
  · rw [create_app_blueprints, create_app_blueprints]

end TeamJ
